import Mathlib

set_option maxRecDepth 8192

/-!
Verification of the core table-to-map transformation of tbl2map.py
(function convert_table_to_map, together with highlight_cells).

The embedding follows the pandas pipeline of lines 386-426 of the source:
well/label extraction by regex, the pivot into a plate grid, and the
merge with the 8 x 12 template DataFrame, plus the cell-styling function
highlight_cells (lines 263-297).
-/

namespace Tbl2Map

/-- Character class `[a-zA-Z]` used by the well-row and label-group regexes
(tbl2map.py lines 406 and 415). -/
def isAlphaCh (c : Char) : Bool :=
  (65 ≤ c.toNat && c.toNat ≤ 90) || (97 ≤ c.toNat && c.toNat ≤ 122)

/-- Character class `[0-9]` used by the well-column and examinee regexes
(tbl2map.py lines 410 and 416). -/
def isDigitCh (c : Char) : Bool := 48 ≤ c.toNat && c.toNat ≤ 57

/-- Python regex class `\s` (space, tab, newline, carriage return,
vertical tab, form feed), as used in the label-group regex (line 406). -/
def isSpaceCh (c : Char) : Bool :=
  c = ' ' || c = '\t' || c = '\n' || c = '\r' || c = '\x0b' || c = '\x0c'

/-- Base-10 value of a digit string, modelling `astype(np.int64)` applied to
the digit run extracted on line 416 (the two-digit runs of real well names
are nowhere near the int64 range, so plain Nat is used). -/
def digitsVal (l : List Char) : Nat := l.foldl (fun a c => a * 10 + (c.toNat - 48)) 0

/-- Leftmost maximal run of digits: the match of regex `([0-9]+)`
(`str.extract` returns the first match, greedy). -/
def firstDigitRun : List Char → Option (List Char)
  | [] => none
  | c :: cs => if isDigitCh c then some (c :: cs.takeWhile isDigitCh) else firstDigitRun cs

/-- `df['Well.row'] = df['Well'].str.extract('([a-zA-Z])')` (line 415):
the first alphabetic character of the well name, NaN (`none`) if there is
none. -/
def extractRow (well : String) : Option Char := well.toList.find? isAlphaCh

/-- `df['Well.col'] = df['Well'].str.extract('([0-9]+)').astype(np.int64)`
(line 416), per element: the leftmost digit run of the well name, parsed in
base 10.  The column-wide `astype` failure when some element has no match is
modelled in `project`. -/
def extractCol (well : String) : Option Nat := (firstDigitRun well.toList).map digitsVal

/-- Boolean substring test on character lists via tails/prefix. -/
def strContainsSub (hay needle : String) : Bool :=
  hay.toList.tails.any (fun t => needle.toList.isPrefixOf t)

/-- ASCII lower-casing of one character, the case folding the `(?i)` flag
performs on the ASCII letters of the marker "Ctrl". -/
def lowerCh (c : Char) : Char :=
  if 65 ≤ c.toNat && c.toNat ≤ 90 then Char.ofNat (c.toNat + 32) else c

/-- Lower-cased copy of a string. -/
def toLowerStr (s : String) : String := String.mk (s.toList.map lowerCh)

/-- `df['Content'].str.contains('(?i)Ctrl')` (line 389): case-insensitive
search for the literal letters "ctrl", i.e. the lowercased content contains
the substring "ctrl". -/
def classify (content : String) : Bool := strContainsSub (toLowerStr content) "ctrl"

/-- Lines 396-403: `df['Label']` is `Content` where the control mask holds
and is otherwise filled from `Sample` via `combine_first`. -/
def deriveLabel (content sample : String) : String :=
  if classify content then content else sample

/-- Match of regex `([a-zA-Z]+\s*[a-zA-Z]+)` (line 406) attempted at the head
of the list, with the greedy-backtracking semantics of Python `re`: a first
alphabetic run, an optional whitespace run, and a second alphabetic run; when
no second run follows, backtracking still accepts a single run of at least
two letters.  A lone letter never matches. -/
def labelGroupAt (l : List Char) : Option (List Char) :=
  let r1 := l.takeWhile isAlphaCh
  if r1.length = 0 then none
  else
    let rest1 := l.drop r1.length
    let w := rest1.takeWhile isSpaceCh
    let r2 := (rest1.drop w.length).takeWhile isAlphaCh
    if r2.length ≠ 0 then some (r1 ++ w ++ r2)
    else if 2 ≤ r1.length then some r1
    else none

/-- Leftmost match of the label-group regex: `re` scans start positions left
to right. -/
def labelGroupSearch : List Char → Option (List Char)
  | [] => none
  | c :: cs =>
    match labelGroupAt (c :: cs) with
    | some m => some m
    | none => labelGroupSearch cs

/-- `df['Label.group'] = df['Label'].str.extract(regex_group)` (lines
406-407), per element. -/
def parseLabelGroup (label : String) : Option String :=
  (labelGroupSearch label.toList).map (fun l => String.mk l)

/-- `df['Label.examinee'] = df['Label'].str.extract('([0-9]+)')` (lines
410-411), per element: leftmost digit run of the label. -/
def parseLabelExaminee (label : String) : Option String :=
  (firstDigitRun label.toList).map (fun l => String.mk l)

/-- One entry of the `color_map` dict built on lines 341-345 from a
semicolon-separated YAML triple: pattern, background color, text color. -/
structure ColorRule where
  val_to_be_colored : String
  background_color : String
  text_color : String
deriving DecidableEq

/-- `str(val)` on line 282: a missing cell (pandas NaN) stringifies to
"nan"; a present string is unchanged. -/
def stringify : Option String → String
  | none => "nan"
  | some s => s

/-- `re.search(val_to_be_colored, val_to_be_examined)` on line 286 for the
metacharacter-free patterns exercised here, where regex search coincides
with case-sensitive substring containment. -/
def reSearchLit (pat v : String) : Bool := strContainsSub v pat

/-- The two inner `if len(...)` blocks of highlight_cells (lines 287-294):
the color strings contributed by a matched rule, background first. -/
def styleOf (r : ColorRule) : List String :=
  (if r.background_color.length ≠ 0 then ["background-color:" ++ r.background_color] else [])
    ++ (if r.text_color.length ≠ 0 then ["color:" ++ r.text_color] else [])

/-- The rule loop of highlight_cells (lines 284-295): the first rule whose
pattern matches contributes its colors and the loop breaks. -/
def colorLst (v : String) : List ColorRule → List String
  | [] => []
  | r :: rs => if reSearchLit r.val_to_be_colored v then styleOf r else colorLst v rs

/-- highlight_cells (lines 263-297): join the collected colors with ";",
returning None when no color was collected. -/
def highlight_cells (val : Option String) (color_map : List ColorRule) : Option String :=
  let lst := colorLst (stringify val) color_map
  if lst.isEmpty then none else some (String.intercalate ";" lst)

/-- The first rule of the list whose pattern matches the value, used to state
properties of highlight_cells. -/
def firstMatch (v : String) : List ColorRule → Option ColorRule
  | [] => none
  | r :: rs => if reSearchLit r.val_to_be_colored v then some r else firstMatch v rs

/-- `well_rows = [chr(i) for i in range(ord('A'), ord('H')+1)]` (line 352). -/
def well_rows : List Char := (List.range 8).map (fun i => Char.ofNat (65 + i))

/-- `well_cols = list(range(1, 13))` (line 351). -/
def well_cols : List Nat := (List.range 12).map (fun i => i + 1)

/-- Row keys of the merged grid: a letter for a parsed row, `none` for the
NaN key produced when `str.extract` found no letter in the well name. -/
def templateRows : List (Option Char) := well_rows.map some

/-- The merged plate grid: the row index, the column index, and one cell per
(row, column) pair in row-major order, each holding an optional label. -/
structure Grid where
  rows : List (Option Char)
  cols : List Nat
  cells : List ((Option Char) × Nat × Option String)
deriving DecidableEq

/-- Boolean membership test via decidable equality. -/
def listMem {α : Type} [DecidableEq α] (x : α) (l : List α) : Bool :=
  l.any (fun y => decide (y = x))

/-- Insert an element into a sorted list at its sorted position. -/
def insSorted {α : Type} (le : α → α → Bool) (x : α) : List α → List α
  | [] => [x]
  | y :: ys => if le x y then x :: y :: ys else y :: insSorted le x ys

/-- Union of index sets as produced by pivot plus `combine_first` (line 426):
the sorted template index, extended by any new keys in sorted position. -/
def indexUnion {α : Type} [DecidableEq α] (le : α → α → Bool)
    (base : List α) (extra : List α) : List α :=
  extra.foldl (fun acc x => if listMem x acc then acc else insSorted le x acc) base

/-- Ordering on row keys: letters in order, the NaN key after all letters
(pandas places NaN last when sorting an index). -/
def rowLE : Option Char → Option Char → Bool
  | some a, some b => decide (a ≤ b)
  | some _, none => true
  | none, some _ => false
  | none, none => true

/-- Ordering on column keys. -/
def natLE (a b : Nat) : Bool := decide (a ≤ b)

/-- The cells of the merged grid: one per (row, column) pair in row-major
order; a cell holds the label of the unique record pivoted onto that key, or
nothing (the template side of `combine_first` contributes only NaN). -/
def gridCells (rows : List (Option Char)) (cols : List Nat)
    (keyed : List ((Option Char × Nat) × String)) :
    List ((Option Char) × Nat × Option String) :=
  rows.flatMap (fun r => cols.map (fun c =>
    (r, c, (keyed.find? (fun kv => decide (kv.1 = (r, c)))).map (fun kv => kv.2))))

/-- `df_tpl` (lines 353-357): the all-NaN 8 x 12 template grid. -/
def buildTemplate : Grid := ⟨templateRows, well_cols, gridCells templateRows well_cols []⟩

/-- The ways the projection pipeline aborts: `astype(np.int64)` on a column
containing NaN (line 416), and `df.pivot` on duplicate (row, column) pairs
(line 422, pandas ValueError "Index contains duplicate entries"). -/
inductive ProjError where
  | intCastingNaN
  | duplicateEntries
deriving DecidableEq

/-- One row of source data: the three columns of interest (lines 382-387). -/
structure WellRecord where
  well : String
  content : String
  sample : String

/-- The (Well.row, Well.col) key of each record after lines 415-416. -/
def wellKeys (records : List WellRecord) : List (Option Char × Nat) :=
  records.map (fun r => (extractRow r.well, (extractCol r.well).getD 0))

/-- Whether some (row, column) key occurs twice, which makes `df.pivot`
raise. -/
def hasDupKeys : List (Option Char × Nat) → Bool
  | [] => false
  | k :: ks => listMem k ks || hasDupKeys ks

/-- The core projection of convert_table_to_map (lines 386-426): derive the
labels, split the well names (line 415-416, with `astype` aborting on a
missing digit run), pivot (line 422, aborting on duplicate keys), and merge
with the template (line 426). -/
def project (records : List WellRecord) : Except ProjError Grid :=
  if (records.map (fun r => extractCol r.well)).any Option.isNone then
    Except.error ProjError.intCastingNaN
  else if hasDupKeys (wellKeys records) then
    Except.error ProjError.duplicateEntries
  else
    let keys := wellKeys records
    let keyed := keys.zip (records.map (fun r => deriveLabel r.content r.sample))
    let rows := indexUnion rowLE templateRows (keys.map Prod.fst)
    let cols := indexUnion natLE well_cols (keys.map Prod.snd)
    Except.ok ⟨rows, cols, gridCells rows cols keyed⟩

/-- The value held by the grid at a given (row, column) key. -/
def Grid.lookup (g : Grid) (r : Option Char) (c : Nat) : Option String :=
  ((g.cells.filter (fun x => decide (x.1 = r) && decide (x.2.1 = c))).head?).bind
    (fun x => x.2.2)

/-- Modelled from the spec: section 4.1 reads "the first alphabetic character
as row and the following digit sequence ... as col".  This definition follows
those words (the first digit run after the first alphabetic character); it is
compared against `extractCol`, which takes the leftmost digit run of the
whole string. -/
def colAfterRow_spec (well : String) : Option Nat :=
  (firstDigitRun ((well.toList.dropWhile (fun c => !isAlphaCh c)).drop 1)).map digitsVal

/-! ## Helper lemmas -/

lemma listMem_iff {α : Type} [DecidableEq α] {x : α} {l : List α} :
    listMem x l = true ↔ x ∈ l := by
  unfold listMem
  rw [List.any_eq_true]
  constructor
  · rintro ⟨y, hy, he⟩
    rw [decide_eq_true_eq] at he
    exact he ▸ hy
  · intro hx
    exact ⟨x, hx, by simp⟩

lemma strContainsSub_iff (hay needle : String) :
    strContainsSub hay needle = true ↔ ∃ l r, l ++ needle.toList ++ r = hay.toList := by
  unfold strContainsSub
  rw [List.any_eq_true]
  constructor
  · rintro ⟨t, ht, hp⟩
    rw [ List.isPrefixOf_iff_prefix] at hp
    obtain ⟨u, hu⟩ := hp
    obtain ⟨s, hs⟩ := (List.mem_tails _ _).mp ht
    exact ⟨s, u, by rw [List.append_assoc, hu, hs]⟩
  · rintro ⟨l, r, h⟩
    refine ⟨needle.toList ++ r, ?_, ?_⟩
    · exact (List.mem_tails _ _).mpr ⟨l, by rw [← List.append_assoc, h]⟩
    · rw [ List.isPrefixOf_iff_prefix]
      exact ⟨r, rfl⟩

lemma indexUnion_eq_base {α : Type} [DecidableEq α] (le : α → α → Bool) (base : List α) :
    ∀ extra : List α, (∀ x ∈ extra, x ∈ base) → indexUnion le base extra = base := by
  intro extra
  induction extra with
  | nil => intro _; rfl
  | cons x xs ih =>
    intro h
    have hx : listMem x base = true := listMem_iff.mpr (h x (List.mem_cons_self x xs))
    unfold indexUnion at ih ⊢
    simp only [List.foldl_cons, hx, if_true]
    exact ih (fun y hy => h y (List.mem_cons_of_mem x hy))

lemma gridCells_length (rows : List (Option Char)) (cols : List Nat)
    (keyed : List ((Option Char × Nat) × String)) :
    (gridCells rows cols keyed).length = rows.length * cols.length := by
  unfold gridCells
  induction rows with
  | nil => simp
  | cons r rs ih =>
    simp only [List.flatMap_cons, List.length_append, List.length_map, List.length_cons, ih]
    ring

lemma colorLst_of_firstMatch_none (v : String) :
    ∀ rules : List ColorRule, firstMatch v rules = none → colorLst v rules = [] := by
  intro rules
  induction rules with
  | nil => intro _; rfl
  | cons r rs ih =>
    intro h
    unfold firstMatch at h
    unfold colorLst
    cases hm : reSearchLit r.val_to_be_colored v with
    | true => rw [hm] at h; simp at h
    | false =>
      rw [hm] at h
      simp only [Bool.false_eq_true, if_false] at h ⊢
      exact ih h

lemma colorLst_of_firstMatch_some (v : String) (rule : ColorRule) :
    ∀ rules : List ColorRule, firstMatch v rules = some rule →
      colorLst v rules = styleOf rule := by
  intro rules
  induction rules with
  | nil => intro h; simp [firstMatch] at h
  | cons r rs ih =>
    intro h
    unfold firstMatch at h
    unfold colorLst
    cases hm : reSearchLit r.val_to_be_colored v with
    | true =>
      rw [hm] at h
      simp only [if_true] at h ⊢
      rw [Option.some_inj] at h
      rw [h]
    | false =>
      rw [hm] at h
      simp only [Bool.false_eq_true, if_false] at h ⊢
      exact ih h

lemma colorLst_skip_unmatched (v : String) (rest : List ColorRule) :
    ∀ pre : List ColorRule, (∀ p ∈ pre, reSearchLit p.val_to_be_colored v = false) →
      colorLst v (pre ++ rest) = colorLst v rest := by
  intro pre
  induction pre with
  | nil => intro _; rfl
  | cons p ps ih =>
    intro h
    have hp : reSearchLit p.val_to_be_colored v = false := h p (List.mem_cons_self p ps)
    have step : colorLst v ((p :: ps) ++ rest) = colorLst v (ps ++ rest) := by
      simp only [List.cons_append, colorLst, hp, Bool.false_eq_true, if_false, List.append_eq]
    rw [step]
    exact ih (fun q hq => h q (List.mem_cons_of_mem p hq))

lemma strLen_ne_zero {s : String} (h : s ≠ "") : s.length ≠ 0 := by
  intro h0
  apply h
  cases s with
  | mk data =>
    cases data with
    | nil => rfl
    | cons a as => simp [String.length] at h0

lemma intercalate_pair (a b : String) : String.intercalate ";" [a, b] = a ++ ";" ++ b := rfl

lemma intercalate_single (a : String) : String.intercalate ";" [a] = a := rfl

lemma labelGroupSearch_no_alpha :
    ∀ l : List Char, (∀ c ∈ l, isAlphaCh c = false) → labelGroupSearch l = none := by
  intro l
  induction l with
  | nil => intro _; rfl
  | cons c cs ih =>
    intro h
    have hc : isAlphaCh c = false := h c (List.mem_cons_self c cs)
    have hat : labelGroupAt (c :: cs) = none := by
      unfold labelGroupAt
      simp [List.takeWhile, hc]
    unfold labelGroupSearch
    rw [hat]
    exact ih (fun x hx => h x (List.mem_cons_of_mem c hx))

/-! ## Claim theorems: highlight resolver, classifier, parsers -/

/-- C5 counterexample: for the rules [("ctrl","yellow",""), ("pos","","red")]
and the value "Pos Ctrl" the claimed result is the first rule only
(background-color:yellow); the code matches case-sensitively, neither
pattern matches "Pos Ctrl", and the resolved style is absent. -/
theorem highlight_PosCtrl_case_sensitive_no_match :
    highlight_cells (some "Pos Ctrl") [⟨"ctrl", "yellow", ""⟩, ⟨"pos", "", "red"⟩] = none := by
  rfl

/-- C5 (amended): highlight_cells iterates rules in the caller-supplied
order and the first rule whose pattern matches (case-sensitively) the
stringified value wins, later matching rules being ignored; since matching
is case-sensitive, the value exercising the precedence must share case with
the patterns: for the rules [("ctrl","yellow",""), ("pos","","red")] and the
value "pos ctrl" the resolved style is that of the first rule only,
background-color:yellow, not the second rule. -/
theorem highlight_first_match_wins :
    (∀ (v : Option String) (pre post : List ColorRule) (rule : ColorRule),
        (∀ p ∈ pre, reSearchLit p.val_to_be_colored (stringify v) = false) →
        reSearchLit rule.val_to_be_colored (stringify v) = true →
        highlight_cells v (pre ++ rule :: post) = highlight_cells v [rule])
    ∧ highlight_cells (some "pos ctrl") [⟨"ctrl", "yellow", ""⟩, ⟨"pos", "", "red"⟩]
        = some "background-color:yellow" := by
  constructor
  · intro v pre post rule hpre hrule
    simp only [highlight_cells]
    rw [colorLst_skip_unmatched (stringify v) (rule :: post) pre hpre]
    have h1 : colorLst (stringify v) (rule :: post) = styleOf rule := by
      simp only [colorLst, hrule, if_true]
    have h2 : colorLst (stringify v) [rule] = styleOf rule := by
      simp only [colorLst, hrule, if_true]
    rw [h1, h2]
  · rfl

/-- C5 witness: the first-match property applied to a concrete unmatched
prefix rule, a matching rule, and a later rule that also matches. -/
theorem highlight_first_match_wins_witness :
    highlight_cells (some "pos ctrl")
        ([⟨"zzz", "", "blue"⟩] ++ ⟨"ctrl", "yellow", ""⟩ :: [⟨"pos", "", "red"⟩])
      = highlight_cells (some "pos ctrl") [⟨"ctrl", "yellow", ""⟩] :=
  highlight_first_match_wins.1 (some "pos ctrl") [⟨"zzz", "", "blue"⟩] [⟨"pos", "", "red"⟩]
    ⟨"ctrl", "yellow", ""⟩
    (by
      intro p hp
      simp only [List.mem_singleton] at hp
      subst hp
      rfl)
    (by rfl)

/-- C6: classify is true exactly when the lowercased content contains the
substring "ctrl" (stated as an explicit decomposition of the character
list), and deriveLabel returns the content for controls and the sample
otherwise, on the two documented examples. -/
theorem classify_derive_label :
    (∀ content : String,
        classify content = true ↔
          ∃ l r, l ++ "ctrl".toList ++ r = (toLowerStr content).toList)
    ∧ deriveLabel "Neg Ctrl" "UT55" = "Neg Ctrl"
    ∧ deriveLabel "Unkn" "UT55" = "UT55" := by
  refine ⟨fun content => ?_, rfl, rfl⟩
  unfold classify
  exact strContainsSub_iff (toLowerStr content) "ctrl"

/-- C6 witness: the characterisation applied at "Neg Ctrl" with an explicit
decomposition of its lowercased character list. -/
theorem classify_derive_label_witness : classify "Neg Ctrl" = true :=
  (classify_derive_label.1 "Neg Ctrl").mpr ⟨['n', 'e', 'g', ' '], [], by decide⟩

/-- C7 counterexample: for the well "12A3" both extractions succeed, the
first alphabetic character is the row, but the extracted column is the
LEFTMOST digit run of the whole string (12), not the digit sequence
following the row letter (3) as the claim states. -/
theorem extractCol_not_following_row :
    extractRow (String.mk ['1', '2', 'A', '3']) = some 'A'
    ∧ extractCol (String.mk ['1', '2', 'A', '3']) = some 12
    ∧ colAfterRow_spec (String.mk ['1', '2', 'A', '3']) = some 3
    ∧ extractCol (String.mk ['1', '2', 'A', '3'])
        ≠ colAfterRow_spec (String.mk ['1', '2', 'A', '3']) := by
  exact ⟨rfl, rfl, rfl, by decide⟩

/-- C7 (amended): the row is the first alphabetic character and the column
is the LEFTMOST digit sequence of the string (the two extractions are
independent), parsed in base 10; for wells matching [A-H][0-9]{2} the two
readings agree and the column is stable under leading-zero stripping
("A01" gives 1, "A12" gives 12). -/
theorem parseWell_row_and_leftmost_digits (rc d1 d2 : Char)
    (hr : 65 ≤ rc.toNat ∧ rc.toNat ≤ 72)
    (h1 : 48 ≤ d1.toNat ∧ d1.toNat ≤ 57)
    (h2 : 48 ≤ d2.toNat ∧ d2.toNat ≤ 57) :
    extractRow (String.mk [rc, d1, d2]) = some rc
    ∧ extractCol (String.mk [rc, d1, d2]) = some (10 * (d1.toNat - 48) + (d2.toNat - 48))
    ∧ extractCol "A01" = some 1
    ∧ extractCol "A12" = some 12 := by
  obtain ⟨hr1, hr2⟩ := hr
  obtain ⟨h11, h12⟩ := h1
  obtain ⟨h21, h22⟩ := h2
  have ha : isAlphaCh rc = true := by
    simp only [isAlphaCh, Bool.or_eq_true, Bool.and_eq_true, decide_eq_true_eq]
    omega
  have hd : isDigitCh rc = false := by
    simp only [isDigitCh, Bool.and_eq_true, decide_eq_true_eq, Bool.and_eq_false_iff,
      decide_eq_false_iff_not, not_le]
    omega
  have hd1 : isDigitCh d1 = true := by
    simp only [isDigitCh, Bool.and_eq_true, decide_eq_true_eq]
    omega
  have hd2 : isDigitCh d2 = true := by
    simp only [isDigitCh, Bool.and_eq_true, decide_eq_true_eq]
    omega
  have ht : (String.mk [rc, d1, d2]).toList = [rc, d1, d2] := rfl
  refine ⟨?_, ?_, rfl, rfl⟩
  · show (String.mk [rc, d1, d2]).toList.find? isAlphaCh = some rc
    rw [ht, List.find?_cons_of_pos _ ha]
  · have hrun : firstDigitRun [rc, d1, d2] = some [d1, d2] := by
      unfold firstDigitRun
      rw [hd]
      simp only [Bool.false_eq_true, if_false]
      unfold firstDigitRun
      rw [hd1]
      simp only [if_true, List.takeWhile_cons, hd2, List.takeWhile_nil]
    show ((firstDigitRun (String.mk [rc, d1, d2]).toList).map digitsVal) = _
    rw [ht, hrun]
    simp only [Option.map_some', digitsVal, List.foldl, Option.some.injEq]
    omega

/-- C7 witness: the amended parse property at the concrete well "B07". -/
theorem parseWell_row_and_leftmost_digits_witness :
    extractRow (String.mk ['B', '0', '7']) = some 'B'
    ∧ extractCol (String.mk ['B', '0', '7'])
        = some (10 * ('0'.toNat - 48) + ('7'.toNat - 48)) := by
  have h := parseWell_row_and_leftmost_digits 'B' '0' '7' (by decide) (by decide) (by decide)
  exact ⟨h.1, h.2.1⟩

/-- C8 counterexample: the label "A" contains an alphabetic run, yet the
group extraction returns absent, because the regex
([a-zA-Z]+\s*[a-zA-Z]+) requires at least two letters. -/
theorem parseLabelGroup_single_letter_absent : parseLabelGroup "A" = none := rfl

/-- C8 (amended): parseLabelGroup extracts the leftmost run of two
alphabetic tokens separated by optional whitespace (a single token of at
least two letters also qualifies), and returns absent when the label has no
alphabetic character at all — but also for a label whose only alphabetic
content is a single isolated letter, which the two-letter pattern cannot
match. -/
theorem parseLabelGroup_two_letter_runs :
    (∀ l : List Char, (∀ c ∈ l, isAlphaCh c = false) → labelGroupSearch l = none)
    ∧ parseLabelGroup "Pos Ctrl" = some "Pos Ctrl"
    ∧ parseLabelGroup "UT100" = some "UT"
    ∧ parseLabelGroup "X" = none :=
  ⟨labelGroupSearch_no_alpha, rfl, rfl, rfl⟩

/-- C8 witness: the no-alphabetic-run case at the concrete label "100". -/
theorem parseLabelGroup_two_letter_runs_witness :
    labelGroupSearch ['1', '0', '0'] = none :=
  parseLabelGroup_two_letter_runs.1 ['1', '0', '0'] (by decide)

/-- C9 counterexample: an absent value is stringified to "nan" and matched
like any other value, so a rule whose pattern matches "nan" styles the
absent cell, contradicting the claim that an absent value always resolves
to an absent style. -/
theorem highlight_absent_value_styled :
    highlight_cells none [⟨"nan", "yellow", ""⟩] = some "background-color:yellow" := rfl

/-- C9 (amended): highlight_cells returns an absent style whenever no rule
pattern matches the STRINGIFIED value (an absent value stringifies to "nan"
and a blank one to "", either of which a rule may match), and a first
matching rule carrying empty strings for both colors likewise yields an
absent style rather than an error. -/
theorem highlight_absent_results :
    (∀ (val : Option String) (rules : List ColorRule),
        firstMatch (stringify val) rules = none → highlight_cells val rules = none)
    ∧ (∀ (val : Option String) (rules : List ColorRule) (rule : ColorRule),
        firstMatch (stringify val) rules = some rule →
        rule.background_color = "" → rule.text_color = "" →
        highlight_cells val rules = none) := by
  constructor
  · intro val rules h
    simp only [highlight_cells, colorLst_of_firstMatch_none (stringify val) rules h,
      List.isEmpty_nil, if_true]
  · intro val rules rule h hbg htxt
    have hs : styleOf rule = [] := by
      simp [styleOf, hbg, htxt]
    simp only [highlight_cells, colorLst_of_firstMatch_some (stringify val) rule rules h, hs,
      List.isEmpty_nil, if_true]

/-- C9 witness: the no-match case at a concrete value and rule list. -/
theorem highlight_absent_results_witness :
    highlight_cells (some "zz") [⟨"ctrl", "yellow", "red"⟩] = none :=
  highlight_absent_results.1 (some "zz") [⟨"ctrl", "yellow", "red"⟩] rfl

/-- C10: when the first matching rule supplies a non-empty background
and/or text color, the resolved style is "background-color:bg" and/or
"color:txt" joined by a semicolon, the background part always first. -/
theorem highlight_style_format (val : Option String) (rules : List ColorRule) (rule : ColorRule)
    (h : firstMatch (stringify val) rules = some rule) :
    (rule.background_color ≠ "" → rule.text_color ≠ "" →
      highlight_cells val rules
        = some ("background-color:" ++ rule.background_color ++ ";"
            ++ ("color:" ++ rule.text_color)))
    ∧ (rule.background_color ≠ "" → rule.text_color = "" →
      highlight_cells val rules = some ("background-color:" ++ rule.background_color))
    ∧ (rule.background_color = "" → rule.text_color ≠ "" →
      highlight_cells val rules = some ("color:" ++ rule.text_color)) := by
  have hc := colorLst_of_firstMatch_some (stringify val) rule rules h
  refine ⟨fun hbg htxt => ?_, fun hbg htxt => ?_, fun hbg htxt => ?_⟩
  · have hs : styleOf rule
        = ["background-color:" ++ rule.background_color, "color:" ++ rule.text_color] := by
      simp [styleOf, strLen_ne_zero hbg, strLen_ne_zero htxt]
    simp only [highlight_cells, hc, hs, List.isEmpty_cons, Bool.false_eq_true, if_false]
    rw [intercalate_pair]
  · have hs : styleOf rule = ["background-color:" ++ rule.background_color] := by
      simp [styleOf, strLen_ne_zero hbg, htxt]
    simp only [highlight_cells, hc, hs, List.isEmpty_cons, Bool.false_eq_true, if_false]
    rw [intercalate_single]
  · have hs : styleOf rule = ["color:" ++ rule.text_color] := by
      simp [styleOf, hbg, strLen_ne_zero htxt]
    simp only [highlight_cells, hc, hs, List.isEmpty_cons, Bool.false_eq_true, if_false]
    rw [intercalate_single]

/-- C10 witness: the both-colors case at a concrete value and rule. -/
theorem highlight_style_format_witness :
    highlight_cells (some "abc") [⟨"b", "blue", "white"⟩]
      = some ("background-color:" ++ "blue" ++ ";" ++ ("color:" ++ "white")) :=
  (highlight_style_format (some "abc") [⟨"b", "blue", "white"⟩] ⟨"b", "blue", "white"⟩ rfl).1
    (by decide) (by decide)

/-! ## Claim theorems: projection -/

/-- C1 counterexample: two records with the well "A01" do not produce a
grid with (A,1) holding the later label; the pivot rejects the duplicate
(row, column) pair and the projection fails. -/
theorem project_duplicate_A01_errors :
    project [⟨"A01", "Unkn", "L1"⟩, ⟨"A01", "Unkn", "L2"⟩]
      = Except.error ProjError.duplicateEntries := rfl

/-- C1 (amended): when two records parse to the same (row, col) key (and
the column extraction succeeded for every record, so the pipeline reaches
the pivot), the whole projection fails with the duplicate-entries error of
df.pivot; no grid — last-write-wins or otherwise — is returned. -/
theorem project_duplicate_keys_rejected (records : List WellRecord)
    (hcols : (records.map (fun r => extractCol r.well)).any Option.isNone = false)
    (hdup : hasDupKeys (wellKeys records) = true) :
    project records = Except.error ProjError.duplicateEntries := by
  simp [project, hcols, hdup]

/-- C1 witness: the duplicate rejection at two concrete "A01" records. -/
theorem project_duplicate_keys_rejected_witness :
    project [⟨"A01", "Unkn", "X1"⟩, ⟨"A01", "Unkn", "X2"⟩]
      = Except.error ProjError.duplicateEntries :=
  project_duplicate_keys_rejected [⟨"A01", "Unkn", "X1"⟩, ⟨"A01", "Unkn", "X2"⟩] rfl rfl

/-- C2 counterexample: the record with well "99" (no row letter) does NOT
abort the projection; a full grid is returned (9 rows x 13 columns = 117
cells including the extra NaN row and column 99) with the label stored at
the (NaN, 99) key. -/
theorem project_no_row_letter_succeeds :
    Except.map (fun g => (g.cells.length, Grid.lookup g none 99))
        (project [⟨"99", "Unkn", "UT1"⟩])
      = Except.ok (117, some "UT1") := rfl

/-- C2 (amended): a record whose well contains no digit sequence aborts the
whole projection (the astype step fails before any grid is built), but a
record whose well merely lacks the row letter, such as "99", is NOT
rejected — the projection succeeds and the label lands in a row keyed by
the missing marker. -/
theorem project_missing_digits_aborts :
    (∀ (records : List WellRecord) (r : WellRecord), r ∈ records →
        extractCol r.well = none → project records = Except.error ProjError.intCastingNaN)
    ∧ (project [⟨"99", "Unkn", "UT1"⟩]).isOk = true := by
  constructor
  · intro records r hr hcol
    have hany : (records.map (fun r => extractCol r.well)).any Option.isNone = true := by
      rw [List.any_eq_true]
      exact ⟨extractCol r.well, List.mem_map_of_mem _ hr, by rw [hcol]; rfl⟩
    simp [project, hany]
  · rfl

/-- C2 witness: the abort at the concrete well "A", which has no digits. -/
theorem project_missing_digits_aborts_witness :
    project [⟨"A", "Unkn", "S"⟩] = Except.error ProjError.intCastingNaN :=
  project_missing_digits_aborts.1 [⟨"A", "Unkn", "S"⟩] ⟨"A", "Unkn", "S"⟩
    (List.mem_singleton.mpr rfl) rfl

/-- C3 counterexample: an input whose records all parse to rows in A-H and
columns in 1-12 (so well-formed in the sense of the claim) but with a
repeated well does not yield a 96-cell grid: the projection fails and no
grid is returned. -/
theorem project_wellformed_duplicate_not_total :
    (project [⟨"A01", "Unkn", "X"⟩, ⟨"A01", "Unkn", "Y"⟩]).isOk = false := rfl

/-- C3 (amended): for every input whose records parse to rows in A-H and
columns in 1-12 AND whose parsed (row, col) keys are pairwise distinct, the
projection returns a grid over exactly the template row and column indices,
with exactly 96 cells; and projecting the empty input yields exactly the
all-absent template grid. -/
theorem project_total_96 :
    (∀ records : List WellRecord,
        (∀ r ∈ records, ∃ ρ, extractRow r.well = some ρ ∧ some ρ ∈ templateRows) →
        (∀ r ∈ records, ∃ κ, extractCol r.well = some κ ∧ κ ∈ well_cols) →
        hasDupKeys (wellKeys records) = false →
        Except.map (fun g => (g.rows, g.cols, g.cells.length)) (project records)
          = Except.ok (templateRows, well_cols, 96))
    ∧ project [] = Except.ok buildTemplate := by
  constructor
  · intro records hrow hcol hdup
    have hany : (records.map (fun r => extractCol r.well)).any Option.isNone = false := by
      by_contra hne
      rw [Bool.not_eq_false, List.any_eq_true] at hne
      obtain ⟨o, ho, hno⟩ := hne
      rw [List.mem_map] at ho
      obtain ⟨r, hr, rfl⟩ := ho
      obtain ⟨κ, hκ, _⟩ := hcol r hr
      rw [hκ] at hno
      simp at hno
    have hrows : indexUnion rowLE templateRows ((wellKeys records).map Prod.fst)
        = templateRows := by
      apply indexUnion_eq_base
      intro x hx
      rw [List.mem_map] at hx
      obtain ⟨k, hk, rfl⟩ := hx
      rw [wellKeys, List.mem_map] at hk
      obtain ⟨r, hr, rfl⟩ := hk
      obtain ⟨ρ, hρ, hmem⟩ := hrow r hr
      simpa [hρ] using hmem
    have hcolsU : indexUnion natLE well_cols ((wellKeys records).map Prod.snd)
        = well_cols := by
      apply indexUnion_eq_base
      intro x hx
      rw [List.mem_map] at hx
      obtain ⟨k, hk, rfl⟩ := hx
      rw [wellKeys, List.mem_map] at hk
      obtain ⟨r, hr, rfl⟩ := hk
      obtain ⟨κ, hκ, hmem⟩ := hcol r hr
      simpa [hκ] using hmem
    simp only [project, hany, Bool.false_eq_true, if_false, hdup, Except.map, hrows, hcolsU,
      gridCells_length]
    simp [templateRows, well_rows, well_cols]
  · rfl

/-- C3 witness: the totality property at the concrete single record "A01". -/
theorem project_total_96_witness :
    Except.map (fun g => (g.rows, g.cols, g.cells.length)) (project [⟨"A01", "Unkn", "UT100"⟩])
      = Except.ok (templateRows, well_cols, 96) :=
  project_total_96.1 [⟨"A01", "Unkn", "UT100"⟩]
    (by
      intro r hr
      rw [List.mem_singleton] at hr
      subst hr
      exact ⟨'A', rfl, by decide⟩)
    (by
      intro r hr
      rw [List.mem_singleton] at hr
      subst hr
      exact ⟨1, rfl, by decide⟩)
    rfl

/-- C4 counterexample: the record with well "J13" — row J outside A-H,
column 13 outside 1-12 — is not rejected; the projection succeeds, the grid
grows to 9 x 13 = 117 cells, and the out-of-bounds (J, 13) position holds
the record label. -/
theorem project_J13_maps_out_of_bounds :
    Except.map (fun g => (g.cells.length, Grid.lookup g (some 'J') 13))
        (project [⟨"J13", "Unkn", "S0"⟩])
      = Except.ok (117, some "S0") := rfl

/-- C4 (amended): a record parsing outside the A-H x 1-12 range does not
fail the conversion; for any content and sample, projecting the single
record with well "J13" succeeds with a 117-cell grid in which the
out-of-range key (J, 13) holds the record label. -/
theorem project_out_of_range_not_rejected (content sample : String) :
    Except.map (fun g => (g.cells.length, Grid.lookup g (some 'J') 13))
        (project [⟨"J13", content, sample⟩])
      = Except.ok (117, some (deriveLabel content sample)) := rfl

end Tbl2Map
